import Mathlib

/-!
Verification of the data-preparation and alerting pipeline of
`src/app.py` (inventory-forecast-app): ingestion and column validation,
day-first date parsing, per-sub-category daily aggregation, the 30-point
guard, alert classification, and presentation assembly (tail table and
CSV export).  Sales amounts and predicted values are modelled as exact
rationals; dataframes are modelled as lists of records whose cells are
`Option`-valued (a `none` cell is a pandas null).
-/

namespace App

/-- A calendar date (year, month, day). -/
structure Date where
  year : Nat
  month : Nat
  day : Nat
deriving DecidableEq

/-- Chronological order on dates: lexicographic on (year, month, day). -/
def Date.le (a b : Date) : Prop :=
  a.year < b.year ∨
    (a.year = b.year ∧
      (a.month < b.month ∨ (a.month = b.month ∧ a.day ≤ b.day)))

instance (a b : Date) : Decidable (Date.le a b) := by
  unfold Date.le; infer_instance

instance : IsTotal Date Date.le :=
  ⟨by intro a b; obtain ⟨y1, m1, d1⟩ := a; obtain ⟨y2, m2, d2⟩ := b
      unfold Date.le; simp only; omega⟩

instance : IsTrans Date Date.le :=
  ⟨by intro a b c hab hbc
      obtain ⟨y1, m1, d1⟩ := a; obtain ⟨y2, m2, d2⟩ := b; obtain ⟨y3, m3, d3⟩ := c
      unfold Date.le at hab hbc ⊢; simp only at hab hbc ⊢; omega⟩

instance : IsAntisymm Date Date.le :=
  ⟨by intro a b hab hba
      obtain ⟨y1, m1, d1⟩ := a; obtain ⟨y2, m2, d2⟩ := b
      unfold Date.le at hab hba; simp only at hab hba
      simp only [Date.mk.injEq]; omega⟩

/-- Gregorian leap-year test. -/
def isLeap (y : Nat) : Bool :=
  (y % 4 == 0 && y % 100 != 0) || y % 400 == 0

/-- Number of days in a given month of a given year. -/
def daysInMonth (y m : Nat) : Nat :=
  if m = 2 then (if isLeap y then 29 else 28)
  else if m = 4 ∨ m = 6 ∨ m = 9 ∨ m = 11 then 30
  else 31

/-- Validity of a (year, month, day) combination. -/
def validDate (y m d : Nat) : Bool :=
  1 ≤ m && m ≤ 12 && 1 ≤ d && d ≤ daysInMonth y m

/-- The next calendar day. -/
def Date.succ (d : Date) : Date :=
  if d.day < daysInMonth d.year d.month then ⟨d.year, d.month, d.day + 1⟩
  else if d.month < 12 then ⟨d.year, d.month + 1, 1⟩
  else ⟨d.year + 1, 1, 1⟩

/-- Split a character list on the slash separator. -/
def splitSlash : List Char → List (List Char)
  | [] => [[]]
  | c :: cs =>
      match splitSlash cs, decide (c = '/') with
      | r, true => [] :: r
      | [], false => [[c]]
      | f :: fs, false => (c :: f) :: fs

/-- Read a non-empty all-digit character list as a decimal number. -/
def digitsToNat (cs : List Char) : Option Nat :=
  if cs.isEmpty then none
  else if cs.all Char.isDigit then
    some (cs.foldl (fun n c => 10 * n + (c.toNat - 48)) 0)
  else none

/-- Models `pd.to_datetime(-, dayfirst=True)` (src/app.py line 25) on a
slash-separated numeric date string: the first field is preferred as the
day and the second as the month; if that combination is not a valid
calendar date, pandas falls back to month-first; if neither reading is
valid (or the string is not three numeric fields), parsing raises. -/
def parseDate (s : String) : Option Date :=
  match (splitSlash s.data).map digitsToNat with
  | [some a, some b, some y] =>
      if validDate y b a then some ⟨y, b, a⟩
      else if validDate y a b then some ⟨y, a, b⟩
      else none
  | _ => none

/-- One uploaded row, before date parsing.  Cells are `Option`-valued:
`none` models a pandas null cell. -/
structure RawRecord where
  orderDate : Option String
  sales : Option ℚ
  subCat : Option String
deriving DecidableEq

/-- The uploaded table: its column names and its rows. -/
structure RawTable where
  columns : List String
  rows : List RawRecord
deriving DecidableEq

/-- The `required_cols` list of src/app.py line 21. -/
def required_cols : List String := ["Order Date", "Sales", "Sub-Category"]

/-- Models `all(col in df.columns for col in required_cols)`
(src/app.py line 22). -/
def hasRequiredCols (t : RawTable) : Bool :=
  required_cols.all (fun c => t.columns.contains c)

/-- The message of `st.error` at src/app.py line 23. -/
def schemaErrorMsg : String :=
  "❌ CSV must contain: \x27Order Date\x27, \x27Sales\x27, and \x27Sub-Category\x27"

/-- A row after date parsing: `date = none` models a pandas `NaT`
(a null `Order Date` cell parses to `NaT` without error). -/
structure Record where
  date : Option Date
  sales : Option ℚ
  subCat : Option String
deriving DecidableEq

/-- Date-parse one row: a null cell becomes `NaT`; a non-null string
that fails to parse raises, failing the whole column conversion. -/
def parseRecord (r : RawRecord) : Option Record :=
  match r.orderDate with
  | none => some ⟨none, r.sales, r.subCat⟩
  | some s =>
      match parseDate s with
      | none => none
      | some d => some ⟨some d, r.sales, r.subCat⟩

/-- Models `df['Order Date'] = pd.to_datetime(df['Order Date'], dayfirst=True)`
(src/app.py line 25): every row is converted, and a failure on any row
aborts the whole conversion. -/
def parseRows : List RawRecord → Option (List Record)
  | [] => some []
  | r :: rs =>
      match parseRecord r, parseRows rs with
      | some pr, some prs => some (pr :: prs)
      | _, _ => none

/-- Outcome of the ingestion stage (src/app.py lines 18-25). -/
inductive IngestResult where
  | schemaError (msg : String)
  | dateParseError
  | ok (rows : List Record)
deriving DecidableEq

/-- Ingestion: check the required columns, then parse the date column.
Only column presence is checked; no per-record null validation occurs. -/
def ingest (t : RawTable) : IngestResult :=
  if hasRequiredCols t then
    match parseRows t.rows with
    | none => .dateParseError
    | some rows => .ok rows
  else .schemaError schemaErrorMsg

/-- Models `df[df['Sub-Category'] == selected_subcat]` (src/app.py
line 32).  A null sub-category cell compares unequal to the selection. -/
def filtered_df (rows : List Record) (sel : String) : List Record :=
  rows.filter (fun r => r.subCat == some sel)

/-- Total sales of the rows carrying a given date.  Models the `'sum'`
aggregation of src/app.py line 33: null sales cells are skipped
(pandas `sum` with default `skipna`), an all-null group sums to 0. -/
def sumSalesOn (rows : List Record) (d : Date) : ℚ :=
  ((rows.filter (fun r => r.date == some d)).filterMap (fun r => r.sales)).sum

/-- The distinct group keys of `groupby('Order Date')`, in ascending
order (pandas groupby sorts group keys by default); `NaT` keys are
dropped (pandas groupby default `dropna`). -/
def groupDates (rows : List Record) : List Date :=
  ((rows.filterMap (fun r => r.date)).dedup).insertionSort Date.le

/-- Models `filtered_df.groupby('Order Date').agg({'Sales': 'sum'})`
(src/app.py lines 32-34): filter to the selection, then one (date,
summed sales) pair per distinct date, dates ascending. -/
def daily_sales (rows : List Record) (sel : String) : List (Date × ℚ) :=
  (groupDates (filtered_df rows sel)).map
    (fun d => (d, sumSalesOn (filtered_df rows sel) d))

/-- Models `get_alert` (src/app.py lines 47-53). -/
def get_alert (yhat : ℚ) : String :=
  if yhat ≥ 500 then "⚠️ High Demand - Restock"
  else if yhat ≤ 100 then "🟢 Low Demand"
  else "✅ Normal"

/-- One row of the forecast dataframe returned by the engine (columns
`ds`, `yhat`, `yhat_lower`, `yhat_upper`). -/
structure ForecastPoint where
  ds : Date
  yhat : ℚ
  yhat_lower : ℚ
  yhat_upper : ℚ
deriving DecidableEq

/-- A forecast row after the `Alert` column is added. -/
structure ForecastRow where
  ds : Date
  yhat : ℚ
  yhat_lower : ℚ
  yhat_upper : ℚ
  alert : String
deriving DecidableEq

/-- Models `forecast['Alert'] = forecast['yhat'].apply(get_alert)`
(src/app.py line 54). -/
def addAlerts (fc : List ForecastPoint) : List ForecastRow :=
  fc.map (fun p => ⟨p.ds, p.yhat, p.yhat_lower, p.yhat_upper, get_alert p.yhat⟩)

/-- A row of the displayed alert table (columns `ds`, `yhat`, `Alert`). -/
structure TableRow where
  ds : Date
  yhat : ℚ
  alert : String
deriving DecidableEq

/-- Models `forecast[['ds', 'yhat', 'Alert']].tail(forecast_days)`
(src/app.py line 90): project the three columns, keep the last
`days` rows. -/
def tailTable (fc : List ForecastRow) (days : Nat) : List TableRow :=
  (fc.map (fun r => (⟨r.ds, r.yhat, r.alert⟩ : TableRow))).drop (fc.length - days)

/-- Models `forecast.to_csv(index=False)` (src/app.py line 93) at row
granularity: the export carries every forecast row with all fields. -/
def exportCsv (fc : List ForecastRow) : List ForecastRow := fc

/-- The contiguous run of `n` calendar days starting at `d`. -/
def contiguousFrom : Date → Nat → List Date
  | _, 0 => []
  | d, n + 1 => d :: contiguousFrom (Date.succ d) n

/-- Modelled from the spec: the forecasting engine (`Prophet`, src/app.py
lines 40-44) is an external library whose code is not part of this
repository.  Spec §4.3 fixes its date contract: the output covers the
historical span plus `horizon` future points, one per calendar day,
contiguous, starting at the earliest input date, with
length = input length + horizon.  This function is those output dates. -/
def specFutureDates (s : List (Date × ℚ)) (horizon : Nat) : List Date :=
  match s with
  | [] => []
  | (d0, _) :: rest => contiguousFrom d0 (rest.length + 1 + horizon)

/-- An engine meets the spec §4.3 date contract when its output dates
are exactly `specFutureDates` of its input. -/
def meetsSpecContract (engine : List (Date × ℚ) → Nat → List ForecastPoint) : Prop :=
  ∀ s h, (engine s h).map ForecastPoint.ds = specFutureDates s h

/-- A concrete engine satisfying the spec contract (constant estimate
300 with bounds [200, 400]), usable to exercise the pipeline. -/
def stubEngine (s : List (Date × ℚ)) (horizon : Nat) : List ForecastPoint :=
  (specFutureDates s horizon).map (fun d => ⟨d, 300, 200, 400⟩)

/-- Outcome of one pipeline run. -/
inductive Outcome where
  | schemaError (msg : String)
  | dateParseError
  | insufficientData (series : List (Date × ℚ))
  | forecasted (forecast : List ForecastRow) (table : List TableRow)
      (csv : List ForecastRow)
deriving DecidableEq

/-- The pipeline of src/app.py lines 16-94, parametrised by the external
forecasting engine: ingestion and validation, aggregation, the
30-point guard (line 36), forecasting, alert annotation, and assembly
of the displayed tail table and the CSV export. -/
def runPipeline (t : RawTable) (sel : String) (horizon : Nat)
    (engine : List (Date × ℚ) → Nat → List ForecastPoint) : Outcome :=
  match ingest t with
  | .schemaError msg => .schemaError msg
  | .dateParseError => .dateParseError
  | .ok rows =>
      if (daily_sales rows sel).length < 30 then
        .insufficientData (daily_sales rows sel)
      else
        .forecasted (addAlerts (engine (daily_sales rows sel) horizon))
          (tailTable (addAlerts (engine (daily_sales rows sel) horizon)) horizon)
          (exportCsv (addAlerts (engine (daily_sales rows sel) horizon)))

/-! Concrete data used to exercise the pipeline end to end: a table of
30 rows for sub-category "Binders", one per day of January 2024. -/

/-- The date string "(i+1)/01/2024" (two-digit day). -/
def wDateStr (i : Nat) : String :=
  String.mk [Char.ofNat (48 + (i + 1) / 10), Char.ofNat (48 + (i + 1) % 10),
    '/', '0', '1', '/', '2', '0', '2', '4']

/-- A 30-row upload: days 01..30 of January 2024, sales 10, one
sub-category. -/
def Wtable : RawTable :=
  ⟨["Order Date", "Sales", "Sub-Category"],
    (List.range 30).map (fun i => ⟨some (wDateStr i), some 10, some "Binders"⟩)⟩

/-- The parsed rows of `Wtable`. -/
def Wrows : List Record := (parseRows Wtable.rows).getD []

/-- The forecast produced for `Wtable` by the stub engine at horizon 30,
after alert annotation. -/
def Wfc : List ForecastRow := addAlerts (stubEngine (daily_sales Wrows "Binders") 30)

/-- The displayed tail table for `Wfc`. -/
def Wtbl : List TableRow := tailTable Wfc 30

/-- The exported rows for `Wfc`. -/
def Wcsv : List ForecastRow := exportCsv Wfc

/-- Two single-category records on distinct dates. -/
def permRecA : Record := ⟨some ⟨2024, 1, 1⟩, some 50, some "X"⟩

/-- See `permRecA`. -/
def permRecB : Record := ⟨some ⟨2024, 1, 2⟩, some 75, some "X"⟩

end App

namespace App

/-! ### Helper lemmas -/

theorem parseRows_length : ∀ {rs : List RawRecord} {prs : List Record},
    parseRows rs = some prs → prs.length = rs.length := by
  intro rs
  induction rs with
  | nil =>
      intro prs h
      simp only [parseRows, Option.some.injEq] at h
      subst h; rfl
  | cons a tl ih =>
      intro prs h
      unfold parseRows at h
      cases hpa : parseRecord a with
      | none => rw [hpa] at h; simp at h
      | some pa =>
          rw [hpa] at h
          cases hpt : parseRows tl with
          | none => rw [hpt] at h; simp at h
          | some pts =>
              rw [hpt] at h
              simp only [Option.some.injEq] at h
              subst h
              simp [ih hpt]

theorem parseRows_none_of_mem : ∀ {rs : List RawRecord} {r : RawRecord},
    r ∈ rs → parseRecord r = none → parseRows rs = none := by
  intro rs
  induction rs with
  | nil => intro r h _; cases h
  | cons a tl ih =>
      intro r hmem hr
      unfold parseRows
      rcases List.mem_cons.mp hmem with h | h
      · subst h; rw [hr]
      · rw [ih h hr]; cases parseRecord a <;> rfl

theorem mem_groupDates (rows : List Record) (d : Date) :
    d ∈ groupDates rows ↔ ∃ r ∈ rows, r.date = some d := by
  unfold groupDates
  rw [(List.perm_insertionSort Date.le _).mem_iff, List.mem_dedup, List.mem_filterMap]

theorem groupDates_sorted (rows : List Record) :
    List.Sorted Date.le (groupDates rows) :=
  List.sorted_insertionSort Date.le _

theorem groupDates_nodup (rows : List Record) : (groupDates rows).Nodup :=
  ((List.perm_insertionSort Date.le _).nodup_iff).mpr (List.nodup_dedup _)

theorem daily_sales_keys (rows : List Record) (sel : String) :
    (daily_sales rows sel).map Prod.fst = groupDates (filtered_df rows sel) := by
  unfold daily_sales
  rw [List.map_map]
  simp [Function.comp_def]

/-! ### C1: alert classification -/

/-- C1: alert classification is a total deterministic function of the
estimate alone: `estimate ≥ 500` yields the high-demand label,
`estimate ≤ 100` the low-demand label, every estimate strictly between
100 and 500 the normal label; in particular 500 is high, 100 is low,
and 499.99 and 100.01 are normal. -/
theorem alert_classification_thresholds :
    (∀ e : ℚ, 500 ≤ e → get_alert e = "⚠️ High Demand - Restock") ∧
    (∀ e : ℚ, e ≤ 100 → get_alert e = "🟢 Low Demand") ∧
    (∀ e : ℚ, 100 < e → e < 500 → get_alert e = "✅ Normal") ∧
    get_alert 500 = "⚠️ High Demand - Restock" ∧
    get_alert 100 = "🟢 Low Demand" ∧
    get_alert (49999 / 100) = "✅ Normal" ∧
    get_alert (10001 / 100) = "✅ Normal" := by
  refine ⟨?_, ?_, ?_, ?_, ?_, ?_, ?_⟩
  · intro e h; unfold get_alert; rw [if_pos h]
  · intro e h; unfold get_alert; rw [if_neg (by intro hc; linarith), if_pos h]
  · intro e h1 h2; unfold get_alert
    rw [if_neg (by intro hc; linarith), if_neg (by intro hc; linarith)]
  · norm_num [get_alert]
  · norm_num [get_alert]
  · norm_num [get_alert]
  · norm_num [get_alert]

/-- Witness for C1 at concrete estimates 600, 50 and 300. -/
theorem alert_classification_thresholds_witness :
    get_alert 600 = "⚠️ High Demand - Restock" ∧
    get_alert 50 = "🟢 Low Demand" ∧
    get_alert 300 = "✅ Normal" :=
  ⟨alert_classification_thresholds.1 600 (by norm_num),
   alert_classification_thresholds.2.1 50 (by norm_num),
   alert_classification_thresholds.2.2.1 300 (by norm_num) (by norm_num)⟩

end App

namespace App

/-! ### C4: missing required columns -/

/-- C4: for every uploaded table missing any required field, the run
fails with the schema error carrying the user-visible message, no
processing of the rows is attempted (the outcome is the same for any
rows, selection, horizon and engine), and the message names every
required field. -/
theorem missing_columns_schema_error (cols : List String)
    (rows rows2 : List RawRecord) (sel sel2 : String) (horizon horizon2 : Nat)
    (engine engine2 : List (Date × ℚ) → Nat → List ForecastPoint)
    (h : hasRequiredCols ⟨cols, rows⟩ = false) :
    runPipeline ⟨cols, rows⟩ sel horizon engine = .schemaError schemaErrorMsg ∧
    runPipeline ⟨cols, rows2⟩ sel2 horizon2 engine2 = .schemaError schemaErrorMsg ∧
    (∀ c ∈ required_cols, List.IsInfix c.data schemaErrorMsg.data) := by
  have h2 : hasRequiredCols ⟨cols, rows2⟩ = false := h
  refine ⟨?_, ?_, by decide⟩
  · unfold runPipeline ingest
    rw [h]
    rfl
  · unfold runPipeline ingest
    rw [h2]
    rfl

/-- Witness for C4: a table lacking the sub-category column. -/
theorem missing_columns_schema_error_witness :
    runPipeline ⟨["Order Date", "Sales"], []⟩ "Binders" 90 stubEngine
      = .schemaError schemaErrorMsg :=
  (missing_columns_schema_error ["Order Date", "Sales"] [] [] "Binders" "Binders"
    90 90 stubEngine stubEngine (by decide)).1

/-! ### C5: the ValidatedDataset non-null invariant -/

/-- C5 counterexample: a dataset whose single record has a null sales
cell passes ingestion unchanged, so datasets containing null fields are
not rejected. -/
theorem ingest_accepts_null_sales :
    ingest ⟨["Order Date", "Sales", "Sub-Category"],
        [⟨some "01/01/2024", none, some "Binders"⟩]⟩
      = .ok [⟨some ⟨2024, 1, 1⟩, none, some "Binders"⟩] ∧
    (⟨some ⟨2024, 1, 1⟩, none, some "Binders"⟩ : Record).sales = none :=
  ⟨rfl, rfl⟩

theorem ingest_ok_iff (t : RawTable) (rows : List Record) :
    ingest t = .ok rows ↔
      (hasRequiredCols t = true ∧ parseRows t.rows = some rows) := by
  constructor
  · intro h
    unfold ingest at h
    by_cases hc : hasRequiredCols t = true
    · rw [if_pos hc] at h
      cases hp : parseRows t.rows with
      | none => rw [hp] at h; simp at h
      | some prs =>
          rw [hp] at h
          simp only [IngestResult.ok.injEq] at h
          subst h
          exact ⟨hc, rfl⟩
    · rw [if_neg hc] at h; simp at h
  · rintro ⟨hc, hp⟩
    simp [ingest, hc, hp]

/-- C5 (amended): ingestion checks only that the required columns are
present and that the non-null date cells parse; a dataset passes
ingestion exactly under those conditions, wholesale (every uploaded row
is kept, none is dropped), with no per-record null validation. -/
theorem ingestion_checks_columns_only :
    (∀ (t : RawTable) (rows : List Record),
      ingest t = .ok rows ↔
        (hasRequiredCols t = true ∧ parseRows t.rows = some rows)) ∧
    (∀ (t : RawTable) (rows : List Record),
      ingest t = .ok rows → rows.length = t.rows.length) :=
  ⟨fun t rows => ingest_ok_iff t rows,
   fun t rows h => parseRows_length ((ingest_ok_iff t rows).mp h).2⟩

/-- Witness for C5 (amended): a record with null sales and null
sub-category is ingested, and no row is dropped. -/
theorem ingestion_checks_columns_only_witness :
    ingest ⟨["Order Date", "Sales", "Sub-Category"], [⟨some "02/01/2024", none, none⟩]⟩
      = .ok [⟨some ⟨2024, 1, 2⟩, none, none⟩] ∧
    ([⟨some ⟨2024, 1, 2⟩, none, none⟩] : List Record).length
      = (⟨["Order Date", "Sales", "Sub-Category"],
          [⟨some "02/01/2024", none, none⟩]⟩ : RawTable).rows.length :=
  ⟨(ingestion_checks_columns_only.1
      ⟨["Order Date", "Sales", "Sub-Category"], [⟨some "02/01/2024", none, none⟩]⟩
      [⟨some ⟨2024, 1, 2⟩, none, none⟩]).mpr ⟨by decide, rfl⟩,
   ingestion_checks_columns_only.2
     ⟨["Order Date", "Sales", "Sub-Category"], [⟨some "02/01/2024", none, none⟩]⟩
     [⟨some ⟨2024, 1, 2⟩, none, none⟩]
     ((ingestion_checks_columns_only.1
        ⟨["Order Date", "Sales", "Sub-Category"], [⟨some "02/01/2024", none, none⟩]⟩
        [⟨some ⟨2024, 1, 2⟩, none, none⟩]).mpr ⟨by decide, rfl⟩)⟩

/-! ### C7: day-first date parsing and failure propagation -/

/-- C7: date parsing prefers the day-before-month reading
("03/04/2024" is April 3rd 2024), and a parse failure on any single
row fails the whole ingestion with the date-parse error. -/
theorem dayfirst_parse_and_failure_propagation :
    parseDate "03/04/2024" = some ⟨2024, 4, 3⟩ ∧
    (∀ t : RawTable, hasRequiredCols t = true →
      (∃ r ∈ t.rows, ∃ s, r.orderDate = some s ∧ parseDate s = none) →
      ingest t = .dateParseError) := by
  refine ⟨by decide, ?_⟩
  rintro t hc ⟨r, hr, s, hrs, hps⟩
  have hpr : parseRecord r = none := by
    simp only [parseRecord, hrs, hps]
  have hnone : parseRows t.rows = none := parseRows_none_of_mem hr hpr
  simp [ingest, hc, hnone]

/-- Witness for C7: a table whose single row has the unparseable date
"99/99/2024" is rejected at the date-parsing step. -/
theorem dayfirst_parse_and_failure_propagation_witness :
    ingest ⟨["Order Date", "Sales", "Sub-Category"],
        [⟨some "99/99/2024", some 5, some "X"⟩]⟩ = .dateParseError :=
  dayfirst_parse_and_failure_propagation.2 _ (by decide)
    ⟨⟨some "99/99/2024", some 5, some "X"⟩, List.mem_singleton_self _,
      "99/99/2024", rfl, by decide⟩

end App

namespace App

/-! ### C2: aggregation recipe -/

theorem mem_daily_sales (rows : List Record) (sel : String) (d : Date) (v : ℚ) :
    (d, v) ∈ daily_sales rows sel ↔
      ((∃ r ∈ filtered_df rows sel, r.date = some d) ∧
        v = sumSalesOn (filtered_df rows sel) d) := by
  unfold daily_sales
  rw [List.mem_map]
  constructor
  · rintro ⟨k, hk, hkeq⟩
    rw [Prod.mk.injEq] at hkeq
    obtain ⟨rfl, hv⟩ := hkeq
    exact ⟨(mem_groupDates _ _).mp hk, hv.symm⟩
  · rintro ⟨hd, rfl⟩
    exact ⟨d, (mem_groupDates _ _).mpr hd, rfl⟩

/-- C2: the aggregated series consists exactly of the pairs (d, total)
where d is a date of some row of the sub-category filter and total is
the sum of the sales of the filtered rows carrying d; its dates are
ascending and occur once each; two same-date rows with sales 50 and 75
merge into a single point with value 125. -/
theorem daily_sales_aggregation_spec (rows : List Record) (sel : String) :
    (∀ (d : Date) (v : ℚ), (d, v) ∈ daily_sales rows sel ↔
      ((∃ r ∈ filtered_df rows sel, r.date = some d) ∧
        v = sumSalesOn (filtered_df rows sel) d)) ∧
    List.Sorted Date.le ((daily_sales rows sel).map Prod.fst) ∧
    ((daily_sales rows sel).map Prod.fst).Nodup ∧
    daily_sales
        [⟨some ⟨2024, 1, 1⟩, some 50, some "X"⟩, ⟨some ⟨2024, 1, 1⟩, some 75, some "X"⟩]
        "X"
      = [(⟨2024, 1, 1⟩, 125)] := by
  refine ⟨mem_daily_sales rows sel, ?_, ?_, ?_⟩
  · rw [daily_sales_keys]; exact groupDates_sorted _
  · rw [daily_sales_keys]; exact groupDates_nodup _
  · simp [daily_sales, groupDates, filtered_df, sumSalesOn, List.dedup]
    norm_num

/-- Witness for C2: the merged duplicate-date point is a member of the
aggregated series. -/
theorem daily_sales_aggregation_spec_witness :
    (⟨2024, 1, 1⟩, (125 : ℚ)) ∈ daily_sales
      [⟨some ⟨2024, 1, 1⟩, some 50, some "X"⟩,
        ⟨some ⟨2024, 1, 1⟩, some 75, some "X"⟩] "X" := by
  rw [(daily_sales_aggregation_spec
    [⟨some ⟨2024, 1, 1⟩, some 50, some "X"⟩,
      ⟨some ⟨2024, 1, 1⟩, some 75, some "X"⟩] "X").2.2.2]
  exact List.mem_singleton_self _

/-! ### C6: invariance under row reordering -/

/-- C6: aggregation is invariant under permutation of the input rows. -/
theorem daily_sales_perm_invariant (rows1 rows2 : List Record) (sel : String)
    (hp : rows1.Perm rows2) :
    daily_sales rows1 sel = daily_sales rows2 sel := by
  have hf : (filtered_df rows1 sel).Perm (filtered_df rows2 sel) := hp.filter _
  have hkeys : groupDates (filtered_df rows1 sel)
      = groupDates (filtered_df rows2 sel) := by
    refine List.eq_of_perm_of_sorted ?_ (groupDates_sorted _) (groupDates_sorted _)
    unfold groupDates
    exact (List.perm_insertionSort _ _).trans
      (((hf.filterMap _).dedup).trans (List.perm_insertionSort _ _).symm)
  have hsum : ∀ d : Date, sumSalesOn (filtered_df rows1 sel) d
      = sumSalesOn (filtered_df rows2 sel) d := by
    intro d
    exact ((hf.filter _).filterMap _).sum_eq
  unfold daily_sales
  rw [hkeys]
  exact List.map_congr_left (fun d _ => by rw [hsum d])

/-- Witness for C6: swapping two rows leaves the series unchanged. -/
theorem daily_sales_perm_invariant_witness :
    daily_sales [permRecA, permRecB] "X" = daily_sales [permRecB, permRecA] "X" :=
  daily_sales_perm_invariant _ _ "X" (List.Perm.swap permRecB permRecA [])

/-! ### C10: independence from other sub-categories -/

/-- C10: the series for a selection depends only on the rows whose
sub-category equals the selection: datasets agreeing on those rows
aggregate identically. -/
theorem daily_sales_noninterference (rows1 rows2 : List Record) (sel : String)
    (h : filtered_df rows1 sel = filtered_df rows2 sel) :
    daily_sales rows1 sel = daily_sales rows2 sel := by
  unfold daily_sales
  rw [h]

/-- Witness for C10: adding a row of another sub-category does not
change the selected series. -/
theorem daily_sales_noninterference_witness :
    daily_sales [permRecA] "X"
      = daily_sales [permRecA, ⟨some ⟨2024, 3, 3⟩, some 999, some "Y"⟩] "X" :=
  daily_sales_noninterference _ _ "X" (by decide)

end App

namespace App

/-! ### C3: the 30-point guard -/

/-- C3: when the aggregated series has fewer than 30 distinct dates the
pipeline stops with the insufficient-data warning, and the outcome does
not depend on the forecasting engine (the engine is never invoked). -/
theorem insufficient_data_guard (t : RawTable) (sel : String) (horizon : Nat)
    (engine engine2 : List (Date × ℚ) → Nat → List ForecastPoint)
    (rows : List Record)
    (hcols : hasRequiredCols t = true)
    (hparse : parseRows t.rows = some rows)
    (hlen : (daily_sales rows sel).length < 30) :
    runPipeline t sel horizon engine = .insufficientData (daily_sales rows sel) ∧
    runPipeline t sel horizon engine = runPipeline t sel horizon engine2 := by
  have hi : ingest t = .ok rows := (ingest_ok_iff t rows).mpr ⟨hcols, hparse⟩
  have h1 : runPipeline t sel horizon engine
      = .insufficientData (daily_sales rows sel) := by
    unfold runPipeline
    simp only [hi]
    rw [if_pos hlen]
  have h2 : runPipeline t sel horizon engine2
      = .insufficientData (daily_sales rows sel) := by
    unfold runPipeline
    simp only [hi]
    rw [if_pos hlen]
  exact ⟨h1, h1.trans h2.symm⟩

/-- Witness for C3: a one-row table yields the warning outcome. -/
theorem insufficient_data_guard_witness :
    runPipeline ⟨["Order Date", "Sales", "Sub-Category"],
        [⟨some "01/01/2024", some 10, some "Binders"⟩]⟩ "Binders" 90 stubEngine
      = .insufficientData
          (daily_sales [⟨some ⟨2024, 1, 1⟩, some 10, some "Binders"⟩] "Binders") :=
  (insufficient_data_guard
    ⟨["Order Date", "Sales", "Sub-Category"],
      [⟨some "01/01/2024", some 10, some "Binders"⟩]⟩ "Binders" 90
    stubEngine (fun _ _ => [])
    [⟨some ⟨2024, 1, 1⟩, some 10, some "Binders"⟩] (by decide) rfl (by decide)).1

/-! ### C8: forecast length and contiguity (spec-modelled adapter) -/

theorem contiguousFrom_length (d : Date) (n : Nat) :
    (contiguousFrom d n).length = n := by
  induction n generalizing d with
  | zero => rfl
  | succ k ih => simp [contiguousFrom, ih]

theorem contiguousFrom_chain (d : Date) (n : Nat) :
    List.Chain' (fun a b => b = Date.succ a) (contiguousFrom d n) := by
  induction n generalizing d with
  | zero => simp [contiguousFrom]
  | succ k ih =>
      rw [contiguousFrom, List.chain'_cons']
      refine ⟨?_, ih (Date.succ d)⟩
      intro b hb
      cases k with
      | zero => simp [contiguousFrom] at hb
      | succ m =>
          rw [contiguousFrom] at hb
          simp only [List.head?_cons, Option.mem_some_iff] at hb
          exact hb.symm

theorem contiguousFrom_head (d : Date) (n : Nat) (h : 0 < n) :
    (contiguousFrom d n).head? = some d := by
  cases n with
  | zero => omega
  | succ m => rfl

theorem stubEngine_meets : meetsSpecContract stubEngine := by
  intro s h
  unfold stubEngine
  rw [List.map_map]
  simp [Function.comp_def]

theorem addAlerts_ds (l : List ForecastPoint) :
    (addAlerts l).map ForecastRow.ds = l.map ForecastPoint.ds := by
  unfold addAlerts
  rw [List.map_map]
  rfl

/-- C8: for every run that reaches forecasting with an engine meeting
the spec §4.3 date contract (the engine itself is external to the
repository and modelled from the spec), the forecast handed to
classification has exactly n + horizon points, its dates are contiguous
(each the calendar successor of the previous), and they start at the
series head — the earliest date, the series being sorted ascending. -/
theorem forecast_length_contiguity (t : RawTable) (sel : String) (horizon : Nat)
    (engine : List (Date × ℚ) → Nat → List ForecastPoint)
    (fc : List ForecastRow) (tbl : List TableRow) (csv : List ForecastRow)
    (hc : meetsSpecContract engine)
    (hrun : runPipeline t sel horizon engine = .forecasted fc tbl csv) :
    ∃ rows : List Record, ingest t = .ok rows ∧
      30 ≤ (daily_sales rows sel).length ∧
      fc.length = (daily_sales rows sel).length + horizon ∧
      List.Chain' (fun a b => b = Date.succ a) (fc.map ForecastRow.ds) ∧
      (fc.map ForecastRow.ds).head? = ((daily_sales rows sel).map Prod.fst).head? ∧
      List.Sorted Date.le ((daily_sales rows sel).map Prod.fst) := by
  cases hi : ingest t with
  | schemaError m =>
      have hstep : runPipeline t sel horizon engine = .schemaError m := by
        unfold runPipeline; rw [hi]
      rw [hstep] at hrun; simp at hrun
  | dateParseError =>
      have hstep : runPipeline t sel horizon engine = .dateParseError := by
        unfold runPipeline; rw [hi]
      rw [hstep] at hrun; simp at hrun
  | ok rows =>
      have hstep : runPipeline t sel horizon engine =
          (if (daily_sales rows sel).length < 30 then
            Outcome.insufficientData (daily_sales rows sel)
          else
            Outcome.forecasted (addAlerts (engine (daily_sales rows sel) horizon))
              (tailTable (addAlerts (engine (daily_sales rows sel) horizon)) horizon)
              (exportCsv (addAlerts (engine (daily_sales rows sel) horizon)))) := by
        unfold runPipeline; rw [hi]
      rw [hstep] at hrun
      by_cases hlen : (daily_sales rows sel).length < 30
      · rw [if_pos hlen] at hrun; simp at hrun
      · rw [if_neg hlen] at hrun
        simp only [Outcome.forecasted.injEq] at hrun
        obtain ⟨hfc, htbl, hcsv⟩ := hrun
        subst hfc
        have hne : 0 < (daily_sales rows sel).length := by omega
        obtain ⟨d0, v0, rest, hds⟩ :
            ∃ d0 v0 rest, daily_sales rows sel = (d0, v0) :: rest := by
          cases hds : daily_sales rows sel with
          | nil => rw [hds] at hne; simp at hne
          | cons p r => exact ⟨p.1, p.2, r, rfl⟩
        have hdates : (addAlerts (engine (daily_sales rows sel) horizon)).map
            ForecastRow.ds = specFutureDates (daily_sales rows sel) horizon := by
          rw [addAlerts_ds]; exact hc _ _
        have hsfd : specFutureDates (daily_sales rows sel) horizon
            = contiguousFrom d0 (rest.length + 1 + horizon) := by
          rw [hds]
          rfl
        refine ⟨rows, rfl, by omega, ?_, ?_, ?_, ?_⟩
        · have hlm := congrArg List.length hdates
          rw [List.length_map] at hlm
          rw [hlm, hsfd, contiguousFrom_length, hds]
          simp
        · rw [hdates, hsfd]
          exact contiguousFrom_chain _ _
        · rw [hdates, hsfd, contiguousFrom_head _ _ (by omega), hds]
          simp
        · rw [daily_sales_keys]
          exact groupDates_sorted _

/-- The 30-row table runs to a forecast under the stub engine. -/
theorem Wrun : runPipeline Wtable "Binders" 30 stubEngine
    = Outcome.forecasted Wfc Wtbl Wcsv := rfl

/-- Witness for C8: the 30-row January table with horizon 30 gives a
60-point contiguous forecast starting at the series head. -/
theorem forecast_length_contiguity_witness :
    ∃ rows : List Record, ingest Wtable = .ok rows ∧
      30 ≤ (daily_sales rows "Binders").length ∧
      Wfc.length = (daily_sales rows "Binders").length + 30 ∧
      List.Chain' (fun a b => b = Date.succ a) (Wfc.map ForecastRow.ds) ∧
      (Wfc.map ForecastRow.ds).head?
        = ((daily_sales rows "Binders").map Prod.fst).head? ∧
      List.Sorted Date.le ((daily_sales rows "Binders").map Prod.fst) :=
  forecast_length_contiguity Wtable "Binders" 30 stubEngine Wfc Wtbl Wcsv
    stubEngine_meets Wrun

/-! ### C9: tail table and export round-trip -/

/-- C9: in every forecasted outcome, the displayed table is exactly the
final `horizon` rows of the forecast (projected to date, predicted
value, alert), and each displayed row appears with identical fields in
the exported rows. -/
theorem tail_table_roundtrip (t : RawTable) (sel : String) (horizon : Nat)
    (engine : List (Date × ℚ) → Nat → List ForecastPoint)
    (fc : List ForecastRow) (tbl : List TableRow) (csv : List ForecastRow)
    (hrun : runPipeline t sel horizon engine = .forecasted fc tbl csv) :
    tbl = tailTable fc horizon ∧ csv = exportCsv fc ∧
    (horizon ≤ fc.length → tbl.length = horizon) ∧
    (∀ x ∈ tbl, ∃ r ∈ csv, r.ds = x.ds ∧ r.yhat = x.yhat ∧ r.alert = x.alert) := by
  cases hi : ingest t with
  | schemaError m =>
      have hstep : runPipeline t sel horizon engine = .schemaError m := by
        unfold runPipeline; rw [hi]
      rw [hstep] at hrun; simp at hrun
  | dateParseError =>
      have hstep : runPipeline t sel horizon engine = .dateParseError := by
        unfold runPipeline; rw [hi]
      rw [hstep] at hrun; simp at hrun
  | ok rows =>
      have hstep : runPipeline t sel horizon engine =
          (if (daily_sales rows sel).length < 30 then
            Outcome.insufficientData (daily_sales rows sel)
          else
            Outcome.forecasted (addAlerts (engine (daily_sales rows sel) horizon))
              (tailTable (addAlerts (engine (daily_sales rows sel) horizon)) horizon)
              (exportCsv (addAlerts (engine (daily_sales rows sel) horizon)))) := by
        unfold runPipeline; rw [hi]
      rw [hstep] at hrun
      by_cases hlen : (daily_sales rows sel).length < 30
      · rw [if_pos hlen] at hrun; simp at hrun
      · rw [if_neg hlen] at hrun
        simp only [Outcome.forecasted.injEq] at hrun
        obtain ⟨hfc, htbl, hcsv⟩ := hrun
        subst hfc; subst htbl; subst hcsv
        refine ⟨rfl, rfl, ?_, ?_⟩
        · intro hle
          unfold tailTable
          rw [List.length_drop, List.length_map]
          omega
        · intro x hx
          unfold tailTable at hx
          have hx2 := List.mem_of_mem_drop hx
          obtain ⟨r, hr, hxr⟩ := List.mem_map.mp hx2
          subst hxr
          exact ⟨r, hr, rfl, rfl, rfl⟩

/-- Witness for C9: on the 30-row January run the displayed table is
the 30-row tail of the 60-row forecast. -/
theorem tail_table_roundtrip_witness :
    Wtbl = tailTable Wfc 30 ∧ Wtbl.length = 30 :=
  ⟨(tail_table_roundtrip Wtable "Binders" 30 stubEngine Wfc Wtbl Wcsv Wrun).1,
   (tail_table_roundtrip Wtable "Binders" 30 stubEngine Wfc Wtbl Wcsv Wrun).2.2.1
     (by decide)⟩

end App
